import Mathlib

/-!
Verification of the RunPod Kokoro TTS worker (`runpod_worker/handler.py`).

The development shallowly embeds the handler module: Python dicts become
association lists over `String` keys and a small JSON-like value type,
the supervised child process and the health endpoint become explicit
oracles (a probe outcome per poll instant, an exit time for the process),
and the readiness loop becomes a clock-indexed recursion where each
iteration advances the clock by the fixed 2-second backoff sleep.
Fallible Python code (raise/except) is embedded with `Except`/`Option`.
-/

namespace KokoroWorker

/-! ### Python values and dict operations

`PyVal` covers the JSON-like values that flow through the handler.
Truthiness follows Python: `None`, `False`, `0`, `""` and `{}` are falsy.
Dicts are insertion-ordered association lists with unique keys:
assignment to an existing key keeps its position, assignment to a fresh
key appends, matching CPython dict semantics used by the handler.
-/

inductive PyVal where
  | vNone : PyVal
  | vBool : Bool → PyVal
  | vInt : Int → PyVal
  | vStr : String → PyVal
  | vDict : List (String × PyVal) → PyVal

abbrev Dict := List (String × PyVal)

/-- Python truthiness, as used by `if not text` and by `or`. -/
def PyVal.truthy : PyVal → Bool
  | .vNone => false
  | .vBool b => b
  | .vInt n => n != 0
  | .vStr s => !s.isEmpty
  | .vDict d => !d.isEmpty

/-- Python `a or b`: returns `a` when `a` is truthy, else `b`. -/
def pyOr (a b : PyVal) : PyVal :=
  if a.truthy then a else b

/-- `d.get(k)` restricted to key presence: the stored value, if any. -/
def dlookup : Dict → String → Option PyVal
  | [], _ => none
  | (k', v) :: rest, k => if k' = k then some v else dlookup rest k

/-- Python `d.get(k)` (missing key yields `None`). -/
def dget (d : Dict) (k : String) : PyVal :=
  (dlookup d k).getD .vNone

/-- Python `d.get(k, default)`. -/
def dgetD (d : Dict) (k : String) (default : PyVal) : PyVal :=
  (dlookup d k).getD default

/-- Python `d[k] = v`: replace in place if the key exists, else append. -/
def dset : Dict → String → PyVal → Dict
  | [], k, v => [(k, v)]
  | (k', v') :: rest, k, v =>
    if k' = k then (k, v) :: rest else (k', v') :: dset rest k v

/-- Python `d.pop(k, None)`: drop the key if present. -/
def dpop : Dict → String → Dict
  | [], _ => []
  | (k', v') :: rest, k => if k' = k then rest else (k', v') :: dpop rest k

/-- Python `d.setdefault(k, v)`: append the pair only when the key is absent. -/
def dsetdefault (d : Dict) (k : String) (v : PyVal) : Dict :=
  match dlookup d k with
  | some _ => d
  | none => d ++ [(k, v)]

/-! ### HealthProbe (`_is_kokoro_up`)

One HTTP GET against `KOKORO_HEALTH_URL` either completes with a status
code, fails with a network error, or exceeds its timeout; the latter two
raise in `requests` and are collapsed by the `except` clause.
-/

/-- Outcome of one GET against the health URL. -/
inductive ProbeOutcome where
  | response : Nat → ProbeOutcome
  | netError : ProbeOutcome
  | timedOut : ProbeOutcome
deriving DecidableEq

/-- `requests.get(KOKORO_HEALTH_URL, timeout=timeout_s)`: a status code,
or an exception for a network failure or an exceeded timeout. -/
def requestsGetHealth : ProbeOutcome → Except Unit Nat
  | .response s => .ok s
  | .netError => .error ()
  | .timedOut => .error ()

/-- `_is_kokoro_up`: `r.status_code == 200` inside a try/except that turns
every exception into `False`. -/
def is_kokoro_up (o : ProbeOutcome) : Bool :=
  match requestsGetHealth o with
  | .ok s => s == 200
  | .error _ => false

/-! ### ServerSupervisor (`_start_kokoro_server`)

The child process is modelled by its exit behaviour: `exitTime = some (t, c)`
means `poll()` returns exit code `c` at every instant `≥ t` and `None`
before; `exitTime = none` is a process that never exits. `WorkerState`
carries the `_kokoro_proc` global and the three environment variables the
start path mutates.
-/

structure Proc where
  exitTime : Option (Nat × Int)

/-- `proc.poll()` at clock instant `t`. -/
def Proc.pollAt (p : Proc) (t : Nat) : Option Int :=
  match p.exitTime with
  | some (te, c) => if te ≤ t then some c else none
  | none => none

/-- The module-level mutable state touched by `_start_kokoro_server`:
the `_kokoro_proc` handle and `os.environ` entries it assigns. -/
structure WorkerState where
  kokoroProc : Option Proc
  envUseGpu : Option String
  envDeviceType : Option String
  envPythonPath : Option String

/-- Result of `_start_kokoro_server`: the state afterwards, whether the
call returned normally (`ok = false` means the launch raised and the
exception propagates), and whether the guard fell through to the launch
path at all. -/
structure StartResult where
  state : WorkerState
  ok : Bool
  launched : Bool

/-- `_start_kokoro_server` at clock instant `now`: returns at once when a
live handle exists; otherwise sets the GPU/path environment variables and
runs the entrypoint-or-uvicorn launch, whose outcome is the oracle
`launch` (`some p` a started process, `none` a raised exception, in which
case `_kokoro_proc` keeps its old value). -/
def start_kokoro_server (st : WorkerState) (launch : Option Proc) (now : Nat) :
    StartResult :=
  match st.kokoroProc with
  | some p =>
    if p.pollAt now = none then
      { state := st, ok := true, launched := false }
    else
      startLaunch st launch
  | none => startLaunch st launch
where
  /-- The fall-through part: diagnostics, environment mutation, launch. -/
  startLaunch (st : WorkerState) (launch : Option Proc) : StartResult :=
    let st' : WorkerState :=
      { st with
        envUseGpu := some "true"
        envDeviceType := some "cuda"
        envPythonPath := some "/app:/app/api" }
    match launch with
    | some p => { state := { st' with kokoroProc := some p }, ok := true, launched := true }
    | none => { state := st', ok := false, launched := true }

/-! ### ReadinessGate (`_ensure_kokoro_ready`)

The poll loop. Time is discrete seconds counted from loop entry; each
iteration that neither detects an exited process nor sees a healthy probe
sleeps 2.0 seconds, so the clock advances by 2 per iteration and probe
durations are not charged. `env.probe t` is the outcome of the in-loop
health GET issued at instant `t`; `env.health0` is the fast-path GET
before any start attempt.
-/

inductive ReadyOutcome where
  | ok : ReadyOutcome
  | startupError : Int → ReadyOutcome
  | timeoutError : ReadyOutcome
  | launchError : ReadyOutcome
deriving DecidableEq

/-- The external world seen by one `_ensure_kokoro_ready` run. -/
structure ReadyEnv where
  health0 : ProbeOutcome
  probe : Nat → ProbeOutcome
  launch : Option Proc

/-- The `if _kokoro_proc is not None: ret = _kokoro_proc.poll()` step of
the loop body: the poll result when a handle exists, `None` otherwise. -/
def pollOf (proc : Option Proc) (t : Nat) : Option Int :=
  match proc with
  | some p => p.pollAt t
  | none => none

/-- The `while time.time() - start < wait_timeout_s` loop: at clock
`elapsed`, first poll the process (raise `RuntimeError` with its exit
code if it exited), then probe health (return on 200), else sleep the
2-second backoff and repeat; once the clock reaches the bound, raise
`TimeoutError`. Returns the outcome with the clock value at exit. -/
def ensure_loop (proc : Option Proc) (env : ReadyEnv) (timeout : Nat)
    (elapsed : Nat) : ReadyOutcome × Nat :=
  if _h : elapsed < timeout then
    match pollOf proc elapsed with
    | some ret => (.startupError ret, elapsed)
    | none =>
      if is_kokoro_up (env.probe elapsed) then (.ok, elapsed)
      else ensure_loop proc env timeout (elapsed + 2)
  else (.timeoutError, elapsed)
termination_by timeout - elapsed
decreasing_by omega

/-- `_ensure_kokoro_ready(wait_timeout_s)`: fast-path probe, then
`_start_kokoro_server`, then the bounded poll loop. Returns the outcome,
the loop clock at exit, and the final worker state. -/
def ensure_kokoro_ready (st : WorkerState) (env : ReadyEnv) (timeout : Nat) :
    ReadyOutcome × Nat × WorkerState :=
  if is_kokoro_up env.health0 then (.ok, 0, st)
  else
    let r := start_kokoro_server st env.launch 0
    if r.ok then
      let (o, e) := ensure_loop r.state.kokoroProc env timeout 0
      (o, e, r.state)
    else (.launchError, 0, r.state)

/-! ### Base64 (`base64.b64encode` / `base64.b64decode`)

Standard RFC 4648 base64 over byte lists (`List Nat`, each entry `< 256`),
as used by `base64.b64encode(audio_bytes).decode("utf-8")` in the handler
and `base64.b64decode` in `local_invoke.py`.
-/

/-- The base64 digit for an index `< 64`. -/
def encB64Digit (n : Nat) : Char :=
  if n < 26 then Char.ofNat (65 + n)
  else if n < 52 then Char.ofNat (97 + (n - 26))
  else if n < 62 then Char.ofNat (48 + (n - 52))
  else if n = 62 then '+' else '/'

/-- The index of a base64 digit, `none` for a non-digit (such as `=`). -/
def decB64Digit (c : Char) : Option Nat :=
  if 'A' ≤ c ∧ c ≤ 'Z' then some (c.toNat - 65)
  else if 'a' ≤ c ∧ c ≤ 'z' then some (c.toNat - 97 + 26)
  else if '0' ≤ c ∧ c ≤ '9' then some (c.toNat - 48 + 52)
  else if c = '+' then some 62
  else if c = '/' then some 63
  else none

/-- `base64.b64encode` on a byte list: 3-byte groups become 4 digits, a
2-byte tail becomes 3 digits and `=`, a 1-byte tail 2 digits and `==`. -/
def b64Encode : List Nat → List Char
  | [] => []
  | [b1] =>
    [encB64Digit (b1 / 4), encB64Digit (b1 % 4 * 16), '=', '=']
  | [b1, b2] =>
    [encB64Digit (b1 / 4), encB64Digit (b1 % 4 * 16 + b2 / 16),
     encB64Digit (b2 % 16 * 4), '=']
  | b1 :: b2 :: b3 :: rest =>
    encB64Digit (b1 / 4) :: encB64Digit (b1 % 4 * 16 + b2 / 16) ::
    encB64Digit (b2 % 16 * 4 + b3 / 64) :: encB64Digit (b3 % 64) ::
    b64Encode rest

/-- `base64.b64decode` on a character list: inverse of `b64Encode`;
padding is accepted only on the final 4-character block. -/
def b64Decode : List Char → Option (List Nat)
  | [] => some []
  | c1 :: c2 :: c3 :: c4 :: rest =>
    (match decB64Digit c1, decB64Digit c2 with
     | some n1, some n2 =>
       if c3 = '=' then
         if c4 = '=' ∧ rest = [] then some [n1 * 4 + n2 / 16] else none
       else
         (match decB64Digit c3 with
          | some n3 =>
            if c4 = '=' then
              if rest = [] then some [n1 * 4 + n2 / 16, n2 % 16 * 16 + n3 / 4]
              else none
            else
              (match decB64Digit c4, b64Decode rest with
               | some n4, some bs =>
                 some ((n1 * 4 + n2 / 16) :: (n2 % 16 * 16 + n3 / 4) ::
                       (n3 % 4 * 64 + n4) :: bs)
               | _, _ => none)
          | none => none)
     | _, _ => none)
  | _ => none

/-! ### SpeechProxy (`_call_kokoro_openai_speech`)

The synthesis POST. The downstream server is an oracle mapping the sent
JSON body to a response (status code, body bytes, optional content-type
header); a non-200 status raises `ValueError`.
-/

/-- A response from the synthesis endpoint. -/
structure SynthResponse where
  status : Nat
  content : List Nat
  contentType : Option String

/-- The downstream synthesis server, as a function of the sent body. -/
structure SynthServer where
  respond : Dict → SynthResponse

/-- The `ValueError` messages of the validation cascade in `handler` that
are reachable, as tags: the job input not being an object, and the
missing text field (canonical `input` or alias `text`). The source also
raises `ValueError` when the job is not a dict, but that branch is dead
code: the jobID logging line runs `job.get("id")` first, which raises
`AttributeError` on every non-dict value, while a dict passes the
isinstance check — so no run reaches that raise. -/
inductive ValidationMsg where
  | inputNotDict : ValidationMsg
  | missingTextField : ValidationMsg
deriving DecidableEq

/-- Errors a handler invocation can surface: the `AttributeError` from
`job.get("id")` in the jobID logging line when the job is not a dict,
the reachable validation failures, the two readiness failures, a launch
failure, and a non-200 synthesis response. -/
inductive HandlerErr where
  | attributeError : HandlerErr
  | validation : ValidationMsg → HandlerErr
  | startup : Int → HandlerErr
  | timeout : HandlerErr
  | launchFail : HandlerErr
  | upstream : Nat → HandlerErr
deriving DecidableEq

/-- The JSON body `_call_kokoro_openai_speech` actually posts: a copy of
its payload argument with `stream` forced to `False`. -/
def sentBody (payload : Dict) : Dict :=
  dset payload "stream" (.vBool false)

/-- `_call_kokoro_openai_speech(payload)`: post `sentBody payload`, raise
`ValueError` on a non-200 status, else return the body bytes and the
content-type header defaulted to `application/octet-stream`. -/
def call_kokoro_openai_speech (payload : Dict) (srv : SynthServer) :
    Except HandlerErr (List Nat × String) :=
  let r := srv.respond (sentBody payload)
  if r.status = 200 then
    .ok (r.content, r.contentType.getD "application/octet-stream")
  else .error (.upstream r.status)

/-! ### JobHandler (`handler`) -/

/-- The text to synthesize: `job_input.get("input") or job_input.get("text")`. -/
def textOf (jobInput : Dict) : PyVal :=
  pyOr (dget jobInput "input") (dget jobInput "text")

/-- The payload sent to the proxy: a copy of `job_input` with the text
under the canonical `input` key, the `text` alias popped, and `model`
defaulted to `"kokoro"`. -/
def normalizePayload (jobInput : Dict) (text : PyVal) : Dict :=
  dsetdefault (dpop (dset jobInput "input" text) "text") "model" (.vStr "kokoro")

/-- The handler's success return value (the four-key result dict). -/
structure HandlerResult where
  audio_base64 : String
  mime_type : String
  format : PyVal
  sample_rate : Nat

/-- The failure, if any, of the pre-network prefix of `handler` — the
checks it runs before any network step. In execution order: the jobID logging line
calls `job.get("id")`, which raises `AttributeError` when the job is not
a dict (so the isinstance raise behind it never fires); then
`job.get("input")` must be a dict, and the text (canonical `input`,
falling back to the `text` alias) must be truthy. Yields the first
failure, `none` if the prefix passes. -/
def earlyErrOf (job : PyVal) : Option HandlerErr :=
  match job with
  | .vDict jobDict =>
    match dget jobDict "input" with
    | .vDict jobInput =>
      if (textOf jobInput).truthy then none else some (.validation .missingTextField)
    | _ => some (.validation .inputNotDict)
  | _ => some .attributeError

/-- `handler(job)`: log the jobID (`job.get("id")` raises
`AttributeError` on a non-dict job, so the `isinstance(job, dict)` raise
after it is unreachable), validate, ensure the server is ready, post the
normalized payload, and package the audio as base64 together with the
MIME type, the echoed `response_format` (default `"mp3"`) and the fixed
sample rate 24000. -/
def handler (job : PyVal) (st : WorkerState) (env : ReadyEnv) (timeout : Nat)
    (srv : SynthServer) : Except HandlerErr HandlerResult :=
  match job with
  | .vDict jobDict =>
    match dget jobDict "input" with
    | .vDict jobInput =>
      let text := textOf jobInput
      if text.truthy then
        match (ensure_kokoro_ready st env timeout).1 with
        | .ok =>
          let payload := normalizePayload jobInput text
          match call_kokoro_openai_speech payload srv with
          | .ok (audioBytes, mime) =>
            .ok { audio_base64 := String.mk (b64Encode audioBytes)
                  mime_type := mime
                  format := dgetD jobInput "response_format" (.vStr "mp3")
                  sample_rate := 24000 }
          | .error e => .error e
        | .startupError c => .error (.startup c)
        | .timeoutError => .error .timeout
        | .launchError => .error .launchFail
      else .error (.validation .missingTextField)
    | _ => .error (.validation .inputNotDict)
  | _ => .error .attributeError

/-! ### Heap model of the dict copies

`handler` and `_call_kokoro_openai_speech` mutate only fresh copies
(`dict(job_input)`, `dict(payload)`) of their inputs. To state that as a
frame property the copies are made explicit: a store of dicts addressed
by allocation index, `dict(_)` allocating a fresh cell, and every
`d[k] = v` / `d.pop` / `d.setdefault` a write to the cell it targets.
-/

abbrev Store := List Dict

/-- Allocate a fresh dict cell; returns the store and the new reference. -/
def allocD (s : Store) (d : Dict) : Store × Nat :=
  (s ++ [d], s.length)

/-- Dereference a dict cell. -/
def readD (s : Store) (r : Nat) : Dict :=
  s.getD r []

/-- Overwrite a dict cell. -/
def writeD (s : Store) (r : Nat) (d : Dict) : Store :=
  s.set r d

/-- `_call_kokoro_openai_speech`, mutation structure only:
`payload = dict(payload)` allocates a copy and `payload["stream"] = False`
writes to that copy. Returns the store and the copy's reference. -/
def callSpeechHeap (s : Store) (payloadRef : Nat) : Store × Nat :=
  let (s1, q) := allocD s (readD s payloadRef)
  let s2 := writeD s1 q (dset (readD s1 q) "stream" (.vBool false))
  (s2, q)

/-- The success path of `handler`, mutation structure only (the
validation prefix reads but never writes): `kokoro_payload = dict(job_input)`
allocates a copy, the three normalization statements write to that copy,
and the proxy call copies again. Returns the final store and the
reference of the body the proxy mutated. -/
def handlerHeap (s0 : Store) (jobInputRef : Nat) : Store × Nat :=
  let jobInput := readD s0 jobInputRef
  let text := textOf jobInput
  let (s1, p) := allocD s0 (readD s0 jobInputRef)
  let s2 := writeD s1 p (dset (readD s1 p) "input" text)
  let s3 := writeD s2 p (dpop (readD s2 p) "text")
  let s4 := writeD s3 p (dsetdefault (readD s3 p) "model" (.vStr "kokoro"))
  callSpeechHeap s4 p

/-- Keys of a dict, in order (the Python dict key view). -/
def keys (d : Dict) : List String :=
  d.map Prod.fst

/-- The synthesis response the server returns to `handler`: its reply to
the posted body, which is the normalized payload with `stream` forced. -/
def synthRespTo (srv : SynthServer) (jobInput : Dict) : SynthResponse :=
  srv.respond (sentBody (normalizePayload jobInput (textOf jobInput)))

/-! ### Dictionary lemmas -/

theorem keys_cons (a : String) (b : PyVal) (tl : Dict) :
    keys ((a, b) :: tl) = a :: keys tl := rfl

theorem dlookup_dset_self (d : Dict) (k : String) (v : PyVal) :
    dlookup (dset d k v) k = some v := by
  induction d with
  | nil => simp [dset, dlookup]
  | cons hd tl ih =>
    obtain ⟨a, b⟩ := hd
    by_cases ha : a = k
    · subst ha; simp [dset, dlookup]
    · simp [dset, dlookup, ha, ih]

theorem dlookup_dset_ne (d : Dict) (k k' : String) (v : PyVal) (h : k' ≠ k) :
    dlookup (dset d k v) k' = dlookup d k' := by
  induction d with
  | nil => simp [dset, dlookup, Ne.symm h]
  | cons hd tl ih =>
    obtain ⟨a, b⟩ := hd
    by_cases ha : a = k
    · subst ha; simp [dset, dlookup, Ne.symm h]
    · by_cases ha' : a = k'
      · subst ha'; simp [dset, dlookup, ha]
      · simp [dset, dlookup, ha, ha', ih]

theorem dlookup_dpop_ne (d : Dict) (k k' : String) (h : k' ≠ k) :
    dlookup (dpop d k) k' = dlookup d k' := by
  induction d with
  | nil => simp [dpop]
  | cons hd tl ih =>
    obtain ⟨a, b⟩ := hd
    by_cases ha : a = k
    · subst ha; simp [dpop, dlookup, Ne.symm h]
    · by_cases ha' : a = k'
      · subst ha'; simp [dpop, dlookup, ha]
      · simp [dpop, dlookup, ha, ha', ih]

theorem dlookup_eq_none_of_not_mem_keys (d : Dict) (k : String)
    (h : k ∉ keys d) : dlookup d k = none := by
  induction d with
  | nil => rfl
  | cons hd tl ih =>
    obtain ⟨a, b⟩ := hd
    rw [keys_cons, List.mem_cons] at h
    push_neg at h
    have hak : ¬a = k := fun hh => h.1 hh.symm
    simp [dlookup, hak, ih h.2]

theorem mem_keys_dset (d : Dict) (k k' : String) (v : PyVal)
    (h : k' ∈ keys (dset d k v)) : k' ∈ keys d ∨ k' = k := by
  induction d with
  | nil =>
    rw [show dset [] k v = [(k, v)] from rfl, keys_cons, List.mem_cons] at h
    rcases h with h | h
    · right; exact h
    · simp [keys] at h
  | cons hd tl ih =>
    obtain ⟨a, b⟩ := hd
    by_cases ha : a = k
    · subst ha
      rw [show dset ((a, b) :: tl) a v = (a, v) :: tl from by simp [dset],
        keys_cons, List.mem_cons] at h
      rcases h with h | h
      · right; exact h
      · left; rw [keys_cons, List.mem_cons]; right; exact h
    · rw [show dset ((a, b) :: tl) k v = (a, b) :: dset tl k v from by simp [dset, ha],
        keys_cons, List.mem_cons] at h
      rcases h with h | h
      · left; rw [keys_cons, List.mem_cons]; left; exact h
      · rcases ih h with h' | h'
        · left; rw [keys_cons, List.mem_cons]; right; exact h'
        · right; exact h'

theorem keys_dset_nodup (d : Dict) (k : String) (v : PyVal)
    (h : (keys d).Nodup) : (keys (dset d k v)).Nodup := by
  induction d with
  | nil => simp [dset, keys]
  | cons hd tl ih =>
    obtain ⟨a, b⟩ := hd
    rw [keys_cons, List.nodup_cons] at h
    by_cases ha : a = k
    · subst ha
      rw [show dset ((a, b) :: tl) a v = (a, v) :: tl from by simp [dset],
        keys_cons, List.nodup_cons]
      exact ⟨h.1, h.2⟩
    · rw [show dset ((a, b) :: tl) k v = (a, b) :: dset tl k v from by simp [dset, ha],
        keys_cons, List.nodup_cons]
      refine ⟨?_, ih h.2⟩
      intro hmem
      rcases mem_keys_dset tl k a v hmem with h' | h'
      · exact h.1 h'
      · exact ha h'

theorem dlookup_dpop_self (d : Dict) (k : String) (h : (keys d).Nodup) :
    dlookup (dpop d k) k = none := by
  induction d with
  | nil => rfl
  | cons hd tl ih =>
    obtain ⟨a, b⟩ := hd
    rw [keys_cons, List.nodup_cons] at h
    by_cases ha : a = k
    · subst ha
      simp only [dpop, if_pos rfl]
      exact dlookup_eq_none_of_not_mem_keys tl a h.1
    · simp [dpop, dlookup, ha, ih h.2]

theorem dlookup_append (d1 d2 : Dict) (k : String) :
    dlookup (d1 ++ d2) k =
      (match dlookup d1 k with
       | some v => some v
       | none => dlookup d2 k) := by
  induction d1 with
  | nil => rfl
  | cons hd tl ih =>
    obtain ⟨a, b⟩ := hd
    by_cases ha : a = k
    · simp [dlookup, ha]
    · simp [dlookup, ha, ih]

theorem dlookup_dsetdefault_self (d : Dict) (k : String) (v : PyVal)
    (h : dlookup d k = none) : dlookup (dsetdefault d k v) k = some v := by
  simp [dsetdefault, h, dlookup_append, dlookup]

theorem dlookup_dsetdefault_ne (d : Dict) (k k' : String) (v : PyVal)
    (h : k' ≠ k) : dlookup (dsetdefault d k v) k' = dlookup d k' := by
  unfold dsetdefault
  cases hm : dlookup d k with
  | some w => rfl
  | none =>
    rw [dlookup_append]
    cases hm' : dlookup d k' with
    | some w => rfl
    | none => simp [dlookup, Ne.symm h]

/-! ### Base64 roundtrip -/

set_option maxHeartbeats 1000000 in
theorem decB64Digit_encB64Digit : ∀ n : Fin 64,
    decB64Digit (encB64Digit n.val) = some n.val := by decide

set_option maxHeartbeats 1000000 in
theorem encB64Digit_ne_pad : ∀ n : Fin 64, encB64Digit n.val ≠ '=' := by decide

theorem dec_enc_of_lt (n : Nat) (h : n < 64) :
    decB64Digit (encB64Digit n) = some n :=
  decB64Digit_encB64Digit ⟨n, h⟩

theorem enc_ne_pad_of_lt (n : Nat) (h : n < 64) : encB64Digit n ≠ '=' :=
  encB64Digit_ne_pad ⟨n, h⟩

theorem b64_roundtrip : ∀ bs : List Nat, (∀ b ∈ bs, b < 256) →
    b64Decode (b64Encode bs) = some bs
  | [], _ => rfl
  | [b1], h => by
    have hb1 : b1 < 256 := h b1 (by simp)
    have h1 : b1 / 4 < 64 := by omega
    have h2 : b1 % 4 * 16 < 64 := by omega
    simp only [b64Encode, b64Decode, dec_enc_of_lt _ h1, dec_enc_of_lt _ h2]
    simp
    omega
  | [b1, b2], h => by
    have hb1 : b1 < 256 := h b1 (by simp)
    have hb2 : b2 < 256 := h b2 (by simp)
    have h1 : b1 / 4 < 64 := by omega
    have h2 : b1 % 4 * 16 + b2 / 16 < 64 := by omega
    have h3 : b2 % 16 * 4 < 64 := by omega
    simp only [b64Encode, b64Decode, dec_enc_of_lt _ h1, dec_enc_of_lt _ h2,
      dec_enc_of_lt _ h3]
    simp [enc_ne_pad_of_lt _ h3]
    omega
  | b1 :: b2 :: b3 :: rest, h => by
    have hb1 : b1 < 256 := h b1 (by simp)
    have hb2 : b2 < 256 := h b2 (by simp)
    have hb3 : b3 < 256 := h b3 (by simp)
    have hrest : ∀ b ∈ rest, b < 256 := fun b hb => h b (by simp [hb])
    have h1 : b1 / 4 < 64 := by omega
    have h2 : b1 % 4 * 16 + b2 / 16 < 64 := by omega
    have h3 : b2 % 16 * 4 + b3 / 64 < 64 := by omega
    have h4 : b3 % 64 < 64 := by omega
    have ih := b64_roundtrip rest hrest
    simp only [b64Encode, b64Decode, dec_enc_of_lt _ h1, dec_enc_of_lt _ h2,
      dec_enc_of_lt _ h3, dec_enc_of_lt _ h4, ih]
    simp [enc_ne_pad_of_lt _ h3, enc_ne_pad_of_lt _ h4]
    omega

/-! ### Readiness loop lemmas -/

theorem ensure_loop_eq (proc : Option Proc) (env : ReadyEnv)
    (timeout elapsed : Nat) :
    ensure_loop proc env timeout elapsed =
      if _h : elapsed < timeout then
        match pollOf proc elapsed with
        | some ret => (.startupError ret, elapsed)
        | none =>
          if is_kokoro_up (env.probe elapsed) then (.ok, elapsed)
          else ensure_loop proc env timeout (elapsed + 2)
      else (.timeoutError, elapsed) := by
  rw [ensure_loop]

theorem ensure_loop_startup_aux (p : Proc) (env : ReadyEnv)
    (timeout te : Nat) (c : Int)
    (hexit : p.exitTime = some (te, c))
    (hdown : ∀ t, t < te → is_kokoro_up (env.probe t) = false)
    (hte : te + 2 ≤ timeout) :
    ∀ n elapsed, timeout - elapsed ≤ n → elapsed < timeout →
      (ensure_loop (some p) env timeout elapsed).1 = .startupError c := by
  intro n
  induction n with
  | zero => intro elapsed hn hlt; omega
  | succ n ih =>
    intro elapsed hn hlt
    rw [ensure_loop_eq, dif_pos hlt]
    by_cases hte' : te ≤ elapsed
    · have hpoll : pollOf (some p) elapsed = some c := by
        simp only [pollOf, Proc.pollAt, hexit]
        rw [if_pos hte']
      simp [hpoll]
    · have hlt' : elapsed < te := by omega
      have hpoll : pollOf (some p) elapsed = none := by
        simp only [pollOf, Proc.pollAt, hexit]
        rw [if_neg (show ¬te ≤ elapsed from by omega)]
      simp only [hpoll, hdown elapsed hlt', Bool.false_eq_true, if_false]
      exact ih (elapsed + 2) (by omega) (by omega)

theorem ensure_loop_timeout_aux (proc : Option Proc) (env : ReadyEnv)
    (timeout : Nat)
    (hnoexit : ∀ t, pollOf proc t = none)
    (hdown : ∀ t, is_kokoro_up (env.probe t) = false) :
    ∀ n elapsed, timeout - elapsed ≤ n → elapsed ≤ timeout + 1 →
      (ensure_loop proc env timeout elapsed).1 = .timeoutError
      ∧ timeout ≤ (ensure_loop proc env timeout elapsed).2
      ∧ (ensure_loop proc env timeout elapsed).2 ≤ timeout + 1 := by
  intro n
  induction n with
  | zero =>
    intro elapsed hn hle
    have hge : ¬elapsed < timeout := by omega
    rw [ensure_loop_eq, dif_neg hge]
    refine ⟨rfl, ?_, ?_⟩ <;> simp <;> omega
  | succ n ih =>
    intro elapsed hn hle
    by_cases hlt : elapsed < timeout
    · rw [ensure_loop_eq, dif_pos hlt, hnoexit elapsed, hdown elapsed]
      simp only [Bool.false_eq_true, if_false]
      exact ih (elapsed + 2) (by omega) (by omega)
    · rw [ensure_loop_eq, dif_neg hlt]
      refine ⟨rfl, ?_, ?_⟩ <;> simp <;> omega

/-! ### Claim theorems: readiness gate and probe -/

/-- The non-fast-path shape of `_ensure_kokoro_ready` on a fresh worker:
when the fast-path probe is down, the state holds no process handle and
the launch yields process `p`, the run is the poll loop over `p` from
clock 0, with the state holding `p` and the three environment
assignments of the start path. -/
theorem ensure_ready_slow_path (st : WorkerState) (env : ReadyEnv)
    (timeout : Nat) (p : Proc)
    (h0 : is_kokoro_up env.health0 = false)
    (hproc0 : st.kokoroProc = none)
    (hlaunch : env.launch = some p) :
    ensure_kokoro_ready st env timeout =
      ((ensure_loop (some p) env timeout 0).1,
       (ensure_loop (some p) env timeout 0).2,
       { st with kokoroProc := some p, envUseGpu := some "true",
                 envDeviceType := some "cuda",
                 envPythonPath := some "/app:/app/api" }) := by
  unfold ensure_kokoro_ready start_kokoro_server
  rw [h0, hproc0]
  simp [start_kokoro_server.startLaunch, hlaunch]

/-- Claim C2: if the supervised child process exits with code `c` at clock `te`
before the health endpoint has ever reported 200 (the fast-path probe and
every in-loop probe issued before `te` are down), and the wait bound
leaves room for one more poll (`te + 2 ≤ timeout`), then
`_ensure_kokoro_ready` fails with the startup error carrying `c`, not
with the timeout error. Probes at or after `te` are unconstrained: the
per-iteration exit check precedes the health probe, so the startup error
wins even if the endpoint were to report 200 at detection time. -/
theorem ensure_ready_startup_error (st : WorkerState) (env : ReadyEnv)
    (timeout te : Nat) (c : Int) (p : Proc)
    (hproc0 : st.kokoroProc = none)
    (hlaunch : env.launch = some p)
    (hexit : p.exitTime = some (te, c))
    (hte : te + 2 ≤ timeout)
    (h0 : is_kokoro_up env.health0 = false)
    (hdown : ∀ t, t < te → is_kokoro_up (env.probe t) = false) :
    (ensure_kokoro_ready st env timeout).1 = .startupError c := by
  rw [ensure_ready_slow_path st env timeout p h0 hproc0 hlaunch]
  exact ensure_loop_startup_aux p env timeout te c hexit hdown hte
    timeout 0 (by omega) (by omega)

theorem ensure_ready_startup_error_witness :
    (ensure_kokoro_ready ⟨none, none, none, none⟩
      ⟨.netError, fun _ => .netError, some ⟨some (0, 7)⟩⟩ 4).1
      = .startupError 7 :=
  ensure_ready_startup_error ⟨none, none, none, none⟩
    ⟨.netError, fun _ => .netError, some ⟨some (0, 7)⟩⟩ 4 0 7 ⟨some (0, 7)⟩
    rfl rfl rfl (by omega) rfl (fun t ht => absurd ht (by omega))

/-- Claim C3: if the health endpoint never reports 200 (fast-path and in-loop
probes all down) and the launched process never exits, then
`_ensure_kokoro_ready` fails with the timeout error, and the clock at
failure is at least the configured bound and within one 2-second backoff
interval of it. -/
theorem ensure_ready_timeout_error (st : WorkerState) (env : ReadyEnv)
    (timeout : Nat) (p : Proc)
    (hproc0 : st.kokoroProc = none)
    (hlaunch : env.launch = some p)
    (hnoexit : p.exitTime = none)
    (h0 : is_kokoro_up env.health0 = false)
    (hdown : ∀ t, is_kokoro_up (env.probe t) = false) :
    (ensure_kokoro_ready st env timeout).1 = .timeoutError
    ∧ timeout ≤ (ensure_kokoro_ready st env timeout).2.1
    ∧ (ensure_kokoro_ready st env timeout).2.1 < timeout + 2 := by
  rw [ensure_ready_slow_path st env timeout p h0 hproc0 hlaunch]
  have hp : ∀ t, pollOf (some p) t = none := by
    intro t; simp [pollOf, Proc.pollAt, hnoexit]
  have hloop := ensure_loop_timeout_aux (some p) env timeout hp hdown timeout 0
    (by omega) (by omega)
  refine ⟨hloop.1, hloop.2.1, ?_⟩
  show (ensure_loop (some p) env timeout 0).2 < timeout + 2
  have := hloop.2.2
  omega

theorem ensure_ready_timeout_error_witness :
    (ensure_kokoro_ready ⟨none, none, none, none⟩
      ⟨.netError, fun _ => .netError, some ⟨none⟩⟩ 4).1 = .timeoutError
    ∧ 4 ≤ (ensure_kokoro_ready ⟨none, none, none, none⟩
      ⟨.netError, fun _ => .netError, some ⟨none⟩⟩ 4).2.1
    ∧ (ensure_kokoro_ready ⟨none, none, none, none⟩
      ⟨.netError, fun _ => .netError, some ⟨none⟩⟩ 4).2.1 < 4 + 2 :=
  ensure_ready_timeout_error ⟨none, none, none, none⟩
    ⟨.netError, fun _ => .netError, some ⟨none⟩⟩ 4 ⟨none⟩
    rfl rfl rfl rfl (fun _ => rfl)

/-- Claim C4: if the fast-path health probe reports up (HTTP 200),
`_ensure_kokoro_ready` returns success at clock 0 with the worker state
untouched: `_kokoro_proc` is unchanged and none of the three environment
variables of the start path is assigned. -/
theorem ensure_ready_fast_path (st : WorkerState) (env : ReadyEnv)
    (timeout : Nat) (h : is_kokoro_up env.health0 = true) :
    ensure_kokoro_ready st env timeout = (.ok, 0, st) := by
  unfold ensure_kokoro_ready
  rw [h]
  simp

theorem ensure_ready_fast_path_witness :
    ensure_kokoro_ready ⟨none, none, none, none⟩
      ⟨.response 200, fun _ => .netError, none⟩ 300
      = (.ok, 0, ⟨none, none, none, none⟩) :=
  ensure_ready_fast_path ⟨none, none, none, none⟩
    ⟨.response 200, fun _ => .netError, none⟩ 300 rfl

/-- Claim C5: `_start_kokoro_server` is a no-op (state unchanged, launch path
not entered) whenever a process handle exists whose poll reports it still
running; and whenever the launch path is entered, either no handle
existed or the handle's poll reported an exit code. -/
theorem start_if_needed_spec (st : WorkerState) (launch : Option Proc)
    (now : Nat) :
    ((∃ p, st.kokoroProc = some p ∧ p.pollAt now = none) →
      start_kokoro_server st launch now = ⟨st, true, false⟩)
    ∧ ((start_kokoro_server st launch now).launched = true →
      st.kokoroProc = none
      ∨ ∃ p c, st.kokoroProc = some p ∧ p.pollAt now = some c) := by
  constructor
  · rintro ⟨p, hp, hpoll⟩
    unfold start_kokoro_server
    rw [hp]
    simp [hpoll]
  · intro hl
    unfold start_kokoro_server at hl
    cases hp : st.kokoroProc with
    | none => left; rfl
    | some p =>
      rw [hp] at hl
      by_cases hpoll : p.pollAt now = none
      · simp [hpoll] at hl
      · right
        cases hc : p.pollAt now with
        | none => exact absurd hc hpoll
        | some c => exact ⟨p, c, rfl, hc⟩

theorem start_if_needed_spec_witness :
    (start_kokoro_server ⟨some ⟨none⟩, none, none, none⟩ none 0
      = ⟨⟨some ⟨none⟩, none, none, none⟩, true, false⟩)
    ∧ ((⟨none, none, none, none⟩ : WorkerState).kokoroProc = none
      ∨ ∃ p c, (⟨none, none, none, none⟩ : WorkerState).kokoroProc = some p
          ∧ p.pollAt 0 = some c) :=
  ⟨(start_if_needed_spec ⟨some ⟨none⟩, none, none, none⟩ none 0).1
      ⟨⟨none⟩, rfl, rfl⟩,
   (start_if_needed_spec ⟨none, none, none, none⟩ (some ⟨none⟩) 0).2 rfl⟩

/-- Claim C6: the JSON body `_call_kokoro_openai_speech` posts to the synthesis
endpoint always carries `stream = False`, whatever `stream` value (or
none at all) the caller-supplied payload held. -/
theorem sent_body_stream_false (payload : Dict) :
    dlookup (sentBody payload) "stream" = some (.vBool false) :=
  dlookup_dset_self payload "stream" (.vBool false)

/-- Claim C7: `_is_kokoro_up` is a total Boolean probe: it returns `true`
exactly when the GET completed with HTTP status 200 within its timeout,
and `false` on any non-200 status, network error, or timeout — the
try/except converts every raised exception into `false`, so no exception
reaches the caller. -/
theorem is_kokoro_up_iff (o : ProbeOutcome) :
    is_kokoro_up o = true ↔ o = .response 200 := by
  cases o <;> simp [is_kokoro_up, requestsGetHealth]

/-! ### Claim theorems: handler validation -/

/-- Fast path of `_ensure_kokoro_ready`: an up health probe short-circuits
everything. -/
theorem ensure_ready_up_eq (st : WorkerState) (env : ReadyEnv) (timeout : Nat)
    (h : is_kokoro_up env.health0 = true) :
    ensure_kokoro_ready st env timeout = (.ok, 0, st) := by
  unfold ensure_kokoro_ready
  rw [h]
  simp

/-- Claim C1 (amended): whenever the pre-network prefix of `handler`
reports a failure — an `AttributeError` from the jobID logging line when
the job is not a dict (the raise of the "job must be a dict" ValueError
behind that line is unreachable), or a ValidationError when the job's
`input` is not a dict or when the text field (canonical `input`, else
alias `text`) is absent or falsy — `handler` fails with exactly that
error, for every readiness environment and synthesis server, i.e. before
any network interaction; `voice` is not validated. -/
theorem handler_validation_fail_fast (job : PyVal) (st : WorkerState)
    (env : ReadyEnv) (timeout : Nat) (srv : SynthServer) (e : HandlerErr)
    (h : earlyErrOf job = some e) :
    handler job st env timeout srv = .error e := by
  cases job with
  | vDict jobDict =>
    cases hin : dget jobDict "input" with
    | vDict jobInput =>
      by_cases ht : (textOf jobInput).truthy
      · exfalso
        simp [earlyErrOf, hin, ht] at h
      · simp [earlyErrOf, hin, ht] at h
        subst h
        simp [handler, hin, ht]
    | vNone =>
      simp [earlyErrOf, hin] at h
      subst h
      simp [handler, hin]
    | vBool b =>
      simp [earlyErrOf, hin] at h
      subst h
      simp [handler, hin]
    | vInt n =>
      simp [earlyErrOf, hin] at h
      subst h
      simp [handler, hin]
    | vStr s =>
      simp [earlyErrOf, hin] at h
      subst h
      simp [handler, hin]
  | vNone =>
    simp [earlyErrOf] at h
    subst h
    simp [handler]
  | vBool b =>
    simp [earlyErrOf] at h
    subst h
    simp [handler]
  | vInt n =>
    simp [earlyErrOf] at h
    subst h
    simp [handler]
  | vStr s =>
    simp [earlyErrOf] at h
    subst h
    simp [handler]

theorem handler_validation_fail_fast_witness :
    handler (.vDict [("input", .vDict [("voice", .vStr "af_bella")])])
      ⟨none, none, none, none⟩
      ⟨.netError, fun _ => .netError, none⟩ 300 ⟨fun _ => ⟨200, [], none⟩⟩
      = .error (.validation .missingTextField)
    ∧ handler .vNone ⟨none, none, none, none⟩
      ⟨.netError, fun _ => .netError, none⟩ 300 ⟨fun _ => ⟨200, [], none⟩⟩
      = .error .attributeError :=
  ⟨handler_validation_fail_fast
    (.vDict [("input", .vDict [("voice", .vStr "af_bella")])])
    ⟨none, none, none, none⟩
    ⟨.netError, fun _ => .netError, none⟩ 300 ⟨fun _ => ⟨200, [], none⟩⟩
    (.validation .missingTextField) rfl,
   handler_validation_fail_fast .vNone ⟨none, none, none, none⟩
    ⟨.netError, fun _ => .netError, none⟩ 300 ⟨fun _ => ⟨200, [], none⟩⟩
    .attributeError rfl⟩

/-- Claim C1 (counterexample to the claim as stated): a job that carries a
non-empty text but no `voice` at all does not fail validation — the run
proceeds into the readiness gate (here all probes are down, so it ends
in the readiness timeout, a network-level outcome, not a
ValidationError). -/
theorem handler_missing_voice_counterexample :
    handler (.vDict [("input", .vDict [("input", .vStr "hi")])])
      ⟨none, none, none, none⟩
      ⟨.netError, fun _ => .netError, some ⟨none⟩⟩ 4
      ⟨fun _ => ⟨200, [], none⟩⟩
      = .error .timeout := by
  have hloop : ensure_loop (some ⟨none⟩)
      ⟨.netError, fun _ => .netError, some ⟨none⟩⟩ 4 0 = (.timeoutError, 4) := by
    simp [ensure_loop, pollOf, Proc.pollAt, is_kokoro_up, requestsGetHealth]
  have hready : ensure_kokoro_ready ⟨none, none, none, none⟩
      ⟨.netError, fun _ => .netError, some ⟨none⟩⟩ 4
      = (.timeoutError, 4,
         ⟨some ⟨none⟩, some "true", some "cuda", some "/app:/app/api"⟩) := by
    rw [ensure_ready_slow_path ⟨none, none, none, none⟩
      ⟨.netError, fun _ => .netError, some ⟨none⟩⟩ 4 ⟨none⟩ rfl rfl rfl, hloop]
  simp [handler, dget, dlookup, textOf, pyOr, PyVal.truthy, hready]
  decide

/-! ### Claim theorems: handler success path and normalization -/

/-- Claim C8: on the success path (validation passes, the fast-path probe is
up, the synthesis endpoint answers 200), `handler` returns exactly the
four-key result: the base64 of the response bytes (and decoding that
string recovers exactly those bytes), the response content-type header
(defaulted to `application/octet-stream` when absent), the job's
`response_format` (defaulted to `"mp3"`), and the constant 24000. -/
theorem handler_success_shape (jobDict jobInput : Dict) (st : WorkerState)
    (env : ReadyEnv) (timeout : Nat) (srv : SynthServer)
    (hin : dget jobDict "input" = .vDict jobInput)
    (htext : (textOf jobInput).truthy = true)
    (hup : is_kokoro_up env.health0 = true)
    (hstatus : (synthRespTo srv jobInput).status = 200)
    (hbytes : ∀ b ∈ (synthRespTo srv jobInput).content, b < 256) :
    handler (.vDict jobDict) st env timeout srv =
      .ok { audio_base64 := String.mk (b64Encode (synthRespTo srv jobInput).content)
            mime_type := (synthRespTo srv jobInput).contentType.getD "application/octet-stream"
            format := dgetD jobInput "response_format" (.vStr "mp3")
            sample_rate := 24000 }
    ∧ b64Decode (String.mk (b64Encode (synthRespTo srv jobInput).content)).toList
        = some (synthRespTo srv jobInput).content := by
  constructor
  · have hstatus' := hstatus
    simp only [synthRespTo] at hstatus'
    simp [handler, hin, htext, ensure_ready_up_eq st env timeout hup,
      call_kokoro_openai_speech, hstatus', synthRespTo]
  · show b64Decode (b64Encode (synthRespTo srv jobInput).content)
        = some (synthRespTo srv jobInput).content
    exact b64_roundtrip _ hbytes

theorem handler_success_shape_witness :
    handler (.vDict [("input", .vDict [("input", .vStr "Hello world!"),
        ("voice", .vStr "af_bella"), ("response_format", .vStr "mp3")])])
      ⟨none, none, none, none⟩
      ⟨.response 200, fun _ => .netError, none⟩ 300
      ⟨fun _ => ⟨200, [72, 105], some "audio/mpeg"⟩⟩ =
      .ok { audio_base64 := String.mk (b64Encode [72, 105])
            mime_type := "audio/mpeg"
            format := .vStr "mp3"
            sample_rate := 24000 }
    ∧ b64Decode (String.mk (b64Encode [72, 105])).toList = some [72, 105] := by
  have h := handler_success_shape
    [("input", .vDict [("input", .vStr "Hello world!"),
        ("voice", .vStr "af_bella"), ("response_format", .vStr "mp3")])]
    [("input", .vStr "Hello world!"), ("voice", .vStr "af_bella"),
        ("response_format", .vStr "mp3")]
    ⟨none, none, none, none⟩
    ⟨.response 200, fun _ => .netError, none⟩ 300
    ⟨fun _ => ⟨200, [72, 105], some "audio/mpeg"⟩⟩
    rfl (by decide) rfl rfl (by decide)
  exact h

/-- Claim C9: for a job input that supplies its text only through the `text`
alias (no `input` key), the normalized downstream payload carries the
text under the canonical `input` key, has no `text` key, gets `model`
defaulted to `"kokoro"` when the job supplied none, and carries every
other caller field through unchanged. The key-uniqueness hypothesis is
the Python dict invariant. -/
theorem normalize_alias_payload (jobInput : Dict)
    (hnodup : (keys jobInput).Nodup)
    (hnoinput : dlookup jobInput "input" = none)
    (_htext : (dget jobInput "text").truthy = true) :
    dlookup (normalizePayload jobInput (textOf jobInput)) "input"
        = some (dget jobInput "text")
    ∧ dlookup (normalizePayload jobInput (textOf jobInput)) "text" = none
    ∧ (dlookup jobInput "model" = none →
        dlookup (normalizePayload jobInput (textOf jobInput)) "model"
          = some (.vStr "kokoro"))
    ∧ ∀ k, k ≠ "input" → k ≠ "text" → k ≠ "model" →
        dlookup (normalizePayload jobInput (textOf jobInput)) k
          = dlookup jobInput k := by
  have htext_eq : textOf jobInput = dget jobInput "text" := by
    simp [textOf, pyOr, dget, hnoinput, PyVal.truthy]
  refine ⟨?_, ?_, ?_, ?_⟩
  · unfold normalizePayload
    rw [dlookup_dsetdefault_ne _ _ _ _ (by decide),
      dlookup_dpop_ne _ _ _ (by decide), dlookup_dset_self, htext_eq]
  · unfold normalizePayload
    rw [dlookup_dsetdefault_ne _ _ _ _ (by decide)]
    exact dlookup_dpop_self _ _ (keys_dset_nodup _ _ _ hnodup)
  · intro hm
    unfold normalizePayload
    refine dlookup_dsetdefault_self _ _ _ ?_
    rw [dlookup_dpop_ne _ _ _ (by decide), dlookup_dset_ne _ _ _ _ (by decide)]
    exact hm
  · intro k hk1 hk2 hk3
    unfold normalizePayload
    rw [dlookup_dsetdefault_ne _ _ _ _ hk3, dlookup_dpop_ne _ _ _ hk2,
      dlookup_dset_ne _ _ _ _ hk1]

theorem normalize_alias_payload_witness :
    dlookup (normalizePayload [("text", .vStr "hi"), ("voice", .vStr "v1")]
        (textOf [("text", .vStr "hi"), ("voice", .vStr "v1")])) "input"
      = some (dget [("text", .vStr "hi"), ("voice", .vStr "v1")] "text")
    ∧ dlookup (normalizePayload [("text", .vStr "hi"), ("voice", .vStr "v1")]
        (textOf [("text", .vStr "hi"), ("voice", .vStr "v1")])) "text" = none
    ∧ dlookup (normalizePayload [("text", .vStr "hi"), ("voice", .vStr "v1")]
        (textOf [("text", .vStr "hi"), ("voice", .vStr "v1")])) "model"
      = some (.vStr "kokoro")
    ∧ dlookup (normalizePayload [("text", .vStr "hi"), ("voice", .vStr "v1")]
        (textOf [("text", .vStr "hi"), ("voice", .vStr "v1")])) "voice"
      = dlookup [("text", .vStr "hi"), ("voice", .vStr "v1")] "voice" := by
  have h := normalize_alias_payload [("text", .vStr "hi"), ("voice", .vStr "v1")]
    (by decide) rfl (by decide)
  exact ⟨h.1, h.2.1, h.2.2.1 rfl, h.2.2.2 "voice" (by decide) (by decide) (by decide)⟩

/-! ### Claim theorems: frame property of the dict copies -/

theorem readD_set_ne (s : Store) (i r : Nat) (d : Dict) (h : r ≠ i) :
    readD (s.set i d) r = readD s r := by
  unfold readD
  rw [List.getD_eq_getElem?_getD, List.getD_eq_getElem?_getD,
    List.getElem?_set_ne (fun hh => h hh.symm)]

theorem readD_append_left (s t : Store) (r : Nat) (h : r < s.length) :
    readD (s ++ t) r = readD s r := by
  unfold readD
  rw [List.getD_eq_getElem?_getD, List.getD_eq_getElem?_getD,
    List.getElem?_append, if_pos h]

/-- Claim C10: the caller's dicts are never mutated. Every reference that was
live in the store before `handler`'s copy-and-normalize path ran — in
particular the `job_input` reference — dereferences to exactly the same
mapping afterwards: all writes target the two freshly allocated copies. -/
theorem handler_heap_frame (s0 : Store) (jobInputRef r : Nat)
    (hr : r < s0.length) :
    readD (handlerHeap s0 jobInputRef).1 r = readD s0 r := by
  unfold handlerHeap callSpeechHeap allocD writeD
  simp only
  rw [readD_set_ne _ _ _ _ (by simp [List.length_set]; omega),
    readD_append_left _ _ _ (by simp [List.length_set]; omega),
    readD_set_ne _ _ _ _ (by omega),
    readD_set_ne _ _ _ _ (by omega),
    readD_set_ne _ _ _ _ (by omega),
    readD_append_left _ _ _ (by omega)]

theorem handler_heap_frame_witness :
    readD (handlerHeap [[("text", .vStr "hi"), ("stream", .vBool true)]] 0).1 0
      = readD [[("text", .vStr "hi"), ("stream", .vBool true)]] 0 :=
  handler_heap_frame [[("text", .vStr "hi"), ("stream", .vBool true)]] 0 0
    (by decide)

end KokoroWorker
